import Mathlib

/-!
Shallow embedding of the flipperzero-tpms decoder core
(src/protocols/ford_tpms.c, gm_tpms.c, toyota_tpms.c, nissan_tpms.c,
hyundai_tpms.c, protocol_items.c), together with theorems checking the
natural-language specification against it.

Machine integers are modelled as `Nat` with explicit `% 2^w` where the C
code can overflow (the 64-bit `decode_data` accumulator, 8-bit CRC
registers and byte extraction).  `float` arithmetic in the analysis
functions is modelled as exact rational arithmetic over `ℚ`.
-/

namespace TPMS

/-- The firmware macro DURATION_DIFF(x, y): absolute difference of two
durations. -/
def DURATION_DIFF (x y : Nat) : Nat := max x y - min x y

/-- Modelled from the spec (section 4.1, bit accumulator) and the firmware
helper `subghz_protocol_blocks_add_bit`, which is not under src/: the bit
is appended as the new least-significant bit of the rolling 64-bit
accumulator `decode_data`; the caller separately increments
`decode_count_bit`. -/
def addBitData (data : Nat) (bit : Bool) : Nat :=
  (2 * data + (if bit then 1 else 0)) % 2 ^ 64

/-- States of the firmware Manchester automaton (`ManchesterState` from
lib/toolbox/manchester_decoder.h, not under src/).  Only `start1` is
referenced by name in src/ (as the value stored by the reset functions);
the remaining phase states are abstracted into `half`. -/
inductive ManchesterState where
  | start1 : ManchesterState
  | half : Bool → ManchesterState
deriving DecidableEq

/-- Modelled from the spec (section 4.2, Manchester recoverer) for the
firmware function `manchester_advance`, which is not under src/: a
two-phase automaton; every second qualifying transition yields exactly one
recovered bit determined by the pairing of the two half-bit levels, and a
malformed pairing (two equal halves) produces no bit and stays in the
automaton. -/
def manchesterAdvance (s : ManchesterState) (levelHigh : Bool) :
    ManchesterState × Option Bool :=
  match s with
  | .start1 => (.half levelHigh, none)
  | .half first =>
    if levelHigh = first then (.half levelHigh, none)
    else (.start1, some levelHigh)

/-- The shared output record `TPMSBlockGeneric`: protocol-independent
decoded reading.  `pressure`/`temperature` are C floats, modelled over
`ℚ`; `battery_low` is a `uint8_t` that Ford repurposes as a raw flags
byte. -/
structure Generic where
  id : Nat
  pressure : ℚ
  temperature : ℚ
  batteryLow : Nat
  data : Nat
  dataCountBit : Nat
deriving DecidableEq

def Generic.init : Generic :=
  { id := 0, pressure := 0, temperature := 0, batteryLow := 0, data := 0,
    dataCountBit := 0 }

/-- One round of the bitwise CRC-8 loop shared by gm_crc8, hyundai_crc8,
nissan_crc8 (src/) and `subghz_protocol_blocks_crc8`:
`crc = (crc & 0x80) ? (crc << 1) ^ poly : crc << 1` on a `uint8_t`. -/
def crc8Round (poly crc : Nat) : Nat :=
  if 128 ≤ crc % 256 then ((crc % 256) * 2) ^^^ poly else (crc % 256) * 2

/-- Process one byte of the CRC-8 computation: xor the byte into the
register, then run eight shift rounds, truncating to eight bits. -/
def crc8Byte (poly crc b : Nat) : Nat :=
  ((crc8Round poly)^[8] (crc ^^^ b)) % 256

/-- CRC-8 over a byte list: the loop of gm_crc8 / hyundai_crc8 /
nissan_crc8 in src/, generalized over the polynomial and the initial
register value (0 in those three; toyota_tpms.c calls the firmware's
`subghz_protocol_blocks_crc8` with poly 0x07 and init 0x80). -/
def crc8 (poly init : Nat) (data : List Nat) : Nat :=
  data.foldl (crc8Byte poly) init

/-! ### Ford decoder (src/protocols/ford_tpms.c) -/

inductive FordStep where
  | reset | sync | data
deriving DecidableEq

structure FordState where
  parserStep : FordStep
  decodeData : Nat
  decodeCountBit : Nat
  manchesterState : ManchesterState
  generic : Generic
deriving DecidableEq

def fordInit : FordState :=
  { parserStep := .reset, decodeData := 0, decodeCountBit := 0,
    manchesterState := .start1, generic := .init }

/-- tpms_protocol_decoder_ford_reset: sets only the parser step and the
Manchester phase. -/
def fordReset (s : FordState) : FordState :=
  { s with parserStep := .reset, manchesterState := .start1 }

/-- tpms_protocol_ford_check_checksum: the 8-bit sum of bytes 0..6 must
equal byte 7. -/
def fordCheckChecksum (d : List Nat) : Bool :=
  ((d.take 7).foldl (fun a b => (a + b) % 256) 0) == d.getD 7 0

/-- The 9-bit raw pressure of ford_tpms.c: byte 4 with bit 0x20 of byte 6
as ninth bit. -/
def fordPressureRaw (d : List Nat) : Nat :=
  d.getD 4 0 + (if d.getD 6 0 &&& 0x20 ≠ 0 then 0x100 else 0)

/-- tpms_protocol_ford_analyze: populate the generic reading from a
checksum-valid 8-byte Ford frame. -/
def fordAnalyze (g : Generic) (d : List Nat) : Generic :=
  let b := fun i => d.getD i 0
  { g with
    id := (b 0 <<< 24) ||| (b 1 <<< 16) ||| (b 2 <<< 8) ||| b 3,
    pressure := ((fordPressureRaw d : ℚ) * (1 / 4)) * (689476 / 10 ^ 7),
    temperature :=
      if b 5 &&& 0x80 = 0 then ((b 5 &&& 0x7f : Nat) : ℚ) - 56 else -1000,
    batteryLow := b 6,
    data := (b 0 <<< 56) ||| (b 1 <<< 48) ||| (b 2 <<< 40) ||| (b 3 <<< 32) |||
      (b 4 <<< 24) ||| (b 5 <<< 16) ||| (b 6 <<< 8) ||| b 7,
    dataCountBit := 64 }

/-- Byte extraction of the Ford data step: eight bytes, big-endian, from
the 64-bit accumulator. -/
def fordBytes (data : Nat) : List Nat :=
  (List.range 8).map fun i => (data >>> ((7 - i) * 8)) % 256

/-- tpms_protocol_decoder_ford_feed.  The second component is `some frame`
exactly when the registered result callback is invoked during the call
(the C guards the call on `base.callback` being non-null; a registered
callback is assumed). -/
def fordFeed (s : FordState) (level : Bool) (duration : Nat) :
    FordState × Option (List Nat) :=
  match s.parserStep with
  | .reset =>
    if level ∧ DURATION_DIFF duration 52 < 15 then
      ({ s with
          parserStep := .sync, decodeData := 0, decodeCountBit := 0,
          manchesterState := .start1 }, none)
    else (s, none)
  | .sync =>
    if DURATION_DIFF duration 52 < 15 then
      let data := addBitData s.decodeData level
      let cnt := s.decodeCountBit + 1
      if 16 ≤ cnt then
        let syncCheck := (data >>> (cnt - 16)) % 2 ^ 16
        let s1 : FordState :=
          if syncCheck = 0xaaa9 then
            { s with
                parserStep := .data, decodeData := 0,
                decodeCountBit := 0, manchesterState := .start1 }
          else { s with decodeData := data, decodeCountBit := cnt }
        let s2 : FordState :=
          if 32 < s1.decodeCountBit then { s1 with parserStep := .reset }
          else s1
        (s2, none)
      else ({ s with decodeData := data, decodeCountBit := cnt }, none)
    else ({ s with parserStep := .reset }, none)
  | .data =>
    if DURATION_DIFF duration 52 < 15 then
      let m := manchesterAdvance s.manchesterState level
      match m.2 with
      | none => ({ s with manchesterState := m.1 }, none)
      | some bit =>
        let data := addBitData s.decodeData bit
        let cnt := s.decodeCountBit + 1
        if 64 ≤ cnt then
          let frame := fordBytes data
          if fordCheckChecksum frame then
            ({ s with
                parserStep := .reset, decodeData := data,
                decodeCountBit := cnt, manchesterState := m.1,
                generic := fordAnalyze s.generic frame }, some frame)
          else
            ({ s with
                parserStep := .reset, decodeData := data,
                decodeCountBit := cnt, manchesterState := m.1 }, none)
        else
          ({ s with
              decodeData := data, decodeCountBit := cnt,
              manchesterState := m.1 }, none)
    else ({ s with parserStep := .reset }, none)

/-- Run the Ford decoder over a list of (level, duration) edges,
collecting every frame for which the callback fired. -/
def fordRun (s : FordState) : List (Bool × Nat) → FordState × List (List Nat)
  | [] => (s, [])
  | (l, d) :: rest =>
    let r := fordFeed s l d
    let r' := fordRun r.1 rest
    (r'.1, r.2.toList ++ r'.2)

/-! ### GM decoder (src/protocols/gm_tpms.c) -/

inductive GMStep where
  | reset | preamble | sync | data
deriving DecidableEq

structure GMState where
  parserStep : GMStep
  decodeData : Nat
  decodeCountBit : Nat
  manchesterState : ManchesterState
  generic : Generic
deriving DecidableEq

def gmInit : GMState :=
  { parserStep := .reset, decodeData := 0, decodeCountBit := 0,
    manchesterState := .start1, generic := .init }

/-- tpms_protocol_decoder_gm_reset. -/
def gmReset (s : GMState) : GMState :=
  { s with parserStep := .reset, manchesterState := .start1 }

/-- gm_crc8 over 8 bytes compared with byte 8
(tpms_protocol_gm_check_crc): Dallas/Maxim CRC-8, poly 0x31, init 0. -/
def gmCheckCrc (d : List Nat) : Bool :=
  crc8 0x31 0 (d.take 8) == d.getD 8 0

/-- tpms_protocol_gm_analyze. -/
def gmAnalyze (g : Generic) (d : List Nat) : Generic :=
  let b := fun i => d.getD i 0
  { g with
    id := (b 2 <<< 24) ||| (b 3 <<< 16) ||| (b 4 <<< 8) ||| b 5,
    pressure := ((b 7 : ℚ) - 50) * (1 / 100),
    temperature := (b 8 : ℚ) - 40,
    batteryLow := if b 6 &&& 0x40 = 0x40 then 1 else 0,
    data := (List.range 9).foldl (fun a i => a ||| (b i <<< ((8 - i) * 8))) 0,
    dataCountBit := 72 }

/-- Byte assembly of the GM data step: the literal preamble bytes 0x55,
0x5D re-prepended, then seven bytes from the accumulator. -/
def gmBytes (data : Nat) : List Nat :=
  0x55 :: 0x5d :: ((List.range 7).map fun i => (data >>> ((6 - i) * 8)) % 256)

/-- tpms_protocol_decoder_gm_feed (the enum value GMDecoderStepSync exists
in the C but is never entered; the search happens in the Preamble step). -/
def gmFeed (s : GMState) (level : Bool) (duration : Nat) :
    GMState × Option (List Nat) :=
  match s.parserStep with
  | .reset =>
    if level ∧ DURATION_DIFF duration 100 < 20 then
      ({ s with
          parserStep := .preamble, decodeData := 0, decodeCountBit := 0,
          manchesterState := .start1 }, none)
    else (s, none)
  | .preamble =>
    if DURATION_DIFF duration 100 < 20 then
      let data := addBitData s.decodeData level
      let cnt := s.decodeCountBit + 1
      if 16 ≤ cnt then
        let pattern := (data >>> (cnt - 16)) % 2 ^ 16
        let s1 : GMState :=
          if pattern = 0x555d then
            { s with
                parserStep := .data, decodeData := 0,
                decodeCountBit := 0, manchesterState := .start1 }
          else { s with decodeData := data, decodeCountBit := cnt }
        let s2 : GMState :=
          if 32 < s1.decodeCountBit then { s1 with parserStep := .reset }
          else s1
        (s2, none)
      else ({ s with decodeData := data, decodeCountBit := cnt }, none)
    else ({ s with parserStep := .reset }, none)
  | .sync => (s, none)
  | .data =>
    if DURATION_DIFF duration 100 < 20 then
      let m := manchesterAdvance s.manchesterState level
      match m.2 with
      | none => ({ s with manchesterState := m.1 }, none)
      | some bit =>
        let data := addBitData s.decodeData bit
        let cnt := s.decodeCountBit + 1
        if 72 ≤ cnt then
          let frame := gmBytes data
          if gmCheckCrc frame then
            ({ s with
                parserStep := .reset, decodeData := data,
                decodeCountBit := cnt, manchesterState := m.1,
                generic := gmAnalyze s.generic frame }, some frame)
          else
            ({ s with
                parserStep := .reset, decodeData := data,
                decodeCountBit := cnt, manchesterState := m.1 }, none)
        else
          ({ s with
              decodeData := data, decodeCountBit := cnt,
              manchesterState := m.1 }, none)
    else ({ s with parserStep := .reset }, none)

def gmRun (s : GMState) : List (Bool × Nat) → GMState × List (List Nat)
  | [] => (s, [])
  | (l, d) :: rest =>
    let r := gmFeed s l d
    let r' := gmRun r.1 rest
    (r'.1, r.2.toList ++ r'.2)

/-! ### Toyota decoder (src/protocols/toyota_tpms.c) -/

inductive ToyotaStep where
  | reset | sync | data
deriving DecidableEq

structure ToyotaState where
  parserStep : ToyotaStep
  decodeData : Nat
  decodeCountBit : Nat
  manchesterBitCount : Nat
  lookingForSync : Bool
  syncFoundBits : Nat
  generic : Generic
deriving DecidableEq

def toyotaInit : ToyotaState :=
  { parserStep := .reset, decodeData := 0, decodeCountBit := 0,
    manchesterBitCount := 0, lookingForSync := true, syncFoundBits := 0,
    generic := .init }

/-- tpms_protocol_decoder_toyota_reset: sets the parser step and clears
the three auxiliary fields, but not the bit accumulator. -/
def toyotaReset (s : ToyotaState) : ToyotaState :=
  { s with
      parserStep := .reset, manchesterBitCount := 0,
      lookingForSync := true, syncFoundBits := 0 }

/-- tpms_protocol_toyota_check_crc: CRC-8 with poly 0x07, init 0x80 over
bytes 0..7, compared with byte 8.  The CRC routine itself is the
firmware's `subghz_protocol_blocks_crc8` (not under src/), modelled from
the spec's parameters by the same crc8 loop as the in-src routines. -/
def toyotaCheckCrc (d : List Nat) : Bool :=
  crc8 0x07 0x80 (d.take 8) == d.getD 8 0

/-- First redundant pressure copy of toyota_tpms.c:
`((data[4] & 0x7f) << 1) | (data[5] >> 7)`. -/
def toyotaPressure1 (d : List Nat) : Nat :=
  ((d.getD 4 0 &&& 0x7f) <<< 1) ||| (d.getD 5 0 >>> 7)

/-- Second redundant pressure copy of toyota_tpms.c: `data[7] ^ 0xff`. -/
def toyotaPressure2 (d : List Nat) : Nat :=
  d.getD 7 0 ^^^ 0xff

/-- Big-endian sensor id from bytes 0..3 (Toyota layout). -/
def toyotaId (d : List Nat) : Nat :=
  (d.getD 0 0 <<< 24) ||| (d.getD 1 0 <<< 16) ||| (d.getD 2 0 <<< 8) |||
    d.getD 3 0

/-- tpms_protocol_toyota_analyze: the id field is written first; if the
two redundant pressure encodings disagree the function returns early,
leaving every other field of the reading unchanged. -/
def toyotaAnalyze (g : Generic) (d : List Nat) : Generic :=
  let b := fun i => d.getD i 0
  let status := (b 4 &&& 0x80) ||| (b 6 &&& 0x7f)
  let p1 := toyotaPressure1 d
  let temp := ((b 5 &&& 0x7f) <<< 1) ||| (b 6 >>> 7)
  let p2 := toyotaPressure2 d
  if p1 ≠ p2 then { g with id := toyotaId d }
  else
    { g with
      id := toyotaId d,
      temperature := (temp : ℚ) - 40,
      pressure := ((p1 : ℚ) * (1 / 4) - 7) * (689476 / 10 ^ 7),
      batteryLow := if status &&& 0x80 ≠ 0 then 1 else 0,
      data := (b 0 <<< 56) ||| (b 1 <<< 48) ||| (b 2 <<< 40) |||
        (b 3 <<< 32) ||| (b 4 <<< 24) ||| (b 5 <<< 16) ||| (b 6 <<< 8) |||
        b 7,
      dataCountBit := 72 }

/-- Byte extraction of the Toyota data step: nine bytes, big-endian, from
the 64-bit accumulator.  For byte 0 the C shifts a `uint64_t` by 64,
which is formally undefined; the shift helpers on the target yield 0 and
the model uses the `Nat` shift, which also gives 0 since the accumulator
is below 2^64. -/
def toyotaBytes (data : Nat) : List Nat :=
  (List.range 9).map fun i => (data >>> ((8 - i) * 8)) % 256

/-- tpms_protocol_decoder_toyota_feed.  Note that in the data step the
callback is invoked whenever the CRC passes, whether or not the pressure
cross-validation inside tpms_protocol_toyota_analyze succeeded. -/
def toyotaFeed (s : ToyotaState) (level : Bool) (duration : Nat) :
    ToyotaState × Option (List Nat) :=
  match s.parserStep with
  | .reset =>
    if level ∧ DURATION_DIFF duration 52 < 15 then
      ({ s with
          parserStep := .sync, decodeData := 0, decodeCountBit := 0,
          manchesterBitCount := 0 }, none)
    else (s, none)
  | .sync =>
    if DURATION_DIFF duration 52 < 15 then
      let data := addBitData s.decodeData level
      let cnt := s.decodeCountBit + 1
      if 12 ≤ cnt then
        let syncCheck := (data >>> (cnt - 12)) % 2 ^ 12
        let s1 : ToyotaState :=
          if syncCheck = 0xa9e then
            { s with
                parserStep := .data, decodeData := 0,
                decodeCountBit := 0, manchesterBitCount := 0 }
          else { s with decodeData := data, decodeCountBit := cnt }
        let s2 : ToyotaState :=
          if 24 < s1.decodeCountBit then { s1 with parserStep := .reset }
          else s1
        (s2, none)
      else ({ s with decodeData := data, decodeCountBit := cnt }, none)
    else ({ s with parserStep := .reset }, none)
  | .data =>
    if DURATION_DIFF duration 52 < 15 then
      let data := addBitData s.decodeData level
      let cnt := s.decodeCountBit + 1
      if 72 ≤ cnt then
        let frame := toyotaBytes data
        if toyotaCheckCrc frame then
          ({ s with
              parserStep := .reset, decodeData := data,
              decodeCountBit := cnt,
              generic := toyotaAnalyze s.generic frame }, some frame)
        else
          ({ s with
              parserStep := .reset, decodeData := data,
              decodeCountBit := cnt }, none)
      else ({ s with decodeData := data, decodeCountBit := cnt }, none)
    else ({ s with parserStep := .reset }, none)

def toyotaRun (s : ToyotaState) :
    List (Bool × Nat) → ToyotaState × List (List Nat)
  | [] => (s, [])
  | (l, d) :: rest =>
    let r := toyotaFeed s l d
    let r' := toyotaRun r.1 rest
    (r'.1, r.2.toList ++ r'.2)

/-! ### Nissan decoder (src/protocols/nissan_tpms.c) -/

inductive NissanStep where
  | reset | preamble | data
deriving DecidableEq

structure NissanState where
  parserStep : NissanStep
  decodeData : Nat
  decodeCountBit : Nat
  lastLevel : Bool
  lastDuration : Nat
  generic : Generic
deriving DecidableEq

def nissanInit : NissanState :=
  { parserStep := .reset, decodeData := 0, decodeCountBit := 0,
    lastLevel := false, lastDuration := 0, generic := .init }

/-- tpms_protocol_decoder_nissan_reset: sets the parser step and clears
the one-pulse lookback, but not the bit accumulator. -/
def nissanReset (s : NissanState) : NissanState :=
  { s with parserStep := .reset, lastLevel := false, lastDuration := 0 }

/-- nissan_crc8 over 8 bytes compared with byte 8
(tpms_protocol_nissan_check_crc): CRC-8 poly 0x07, init 0. -/
def nissanCheckCrc (d : List Nat) : Bool :=
  crc8 0x07 0 (d.take 8) == d.getD 8 0

/-- tpms_protocol_nissan_analyze. -/
def nissanAnalyze (g : Generic) (d : List Nat) : Generic :=
  let b := fun i => d.getD i 0
  { g with
    id := (b 1 <<< 24) ||| (b 2 <<< 16) ||| (b 3 <<< 8) ||| b 4,
    pressure := (((b 5 <<< 8) ||| b 6 : Nat) : ℚ) * (1 / 4) * (1 / 100),
    temperature := (b 7 : ℚ) - 40,
    batteryLow := if b 8 &&& 0x80 = 0x80 then 1 else 0,
    data := (List.range 9).foldl (fun a i => a ||| (b i <<< ((8 - i) * 8))) 0,
    dataCountBit := 72 }

/-- The PWM classification shared verbatim by the Preamble and Data cases
of tpms_protocol_decoder_nissan_feed, applied to the previous edge's
duration on a falling edge: at least te_long − te_delta gives bit 1, else
at least te_short − te_delta gives bit 0, else the frame is invalid. -/
inductive NissanBit where
  | one | zero | invalid
deriving DecidableEq

def nissanClassify (lastDuration : Nat) : NissanBit :=
  if 104 - 15 ≤ lastDuration then .one
  else if 52 - 15 ≤ lastDuration then .zero
  else .invalid

/-- The C `bit_value` for a valid classification: 1 for a long pulse,
0 for a short one. -/
def NissanBit.toBool : NissanBit → Bool
  | .one => true
  | _ => false

/-- Byte assembly of the Nissan data step: the literal sync byte 0x5A
re-prepended, then eight bytes from the accumulator. -/
def nissanBytes (data : Nat) : List Nat :=
  0x5a :: ((List.range 8).map fun i => (data >>> ((7 - i) * 8)) % 256)

/-- tpms_protocol_decoder_nissan_feed.  On the invalid-pulse path the C
`break`s out of the switch before the trailing statements, so the
lookback (last_level/last_duration) is not updated there, nor in the
Reset case. -/
def nissanFeed (s : NissanState) (level : Bool) (duration : Nat) :
    NissanState × Option (List Nat) :=
  match s.parserStep with
  | .reset =>
    if level ∧ 104 - 15 ≤ duration then
      ({ s with
          parserStep := .preamble, decodeData := 0,
          decodeCountBit := 0 }, none)
    else (s, none)
  | .preamble =>
    if level then
      ({ s with lastLevel := level, lastDuration := duration }, none)
    else
      match nissanClassify s.lastDuration with
      | .invalid => ({ s with parserStep := .reset }, none)
      | c =>
        let data := addBitData s.decodeData c.toBool
        let cnt := s.decodeCountBit + 1
        let s1 : NissanState :=
          if 28 ≤ cnt then
            let s2 : NissanState :=
              if data % 256 = 0x5a then
                { s with
                    parserStep := .data, decodeData := 0,
                    decodeCountBit := 0 }
              else { s with decodeData := data, decodeCountBit := cnt }
            if 40 < s2.decodeCountBit then { s2 with parserStep := .reset }
            else s2
          else { s with decodeData := data, decodeCountBit := cnt }
        ({ s1 with lastLevel := level, lastDuration := duration }, none)
  | .data =>
    if level then
      ({ s with lastLevel := level, lastDuration := duration }, none)
    else
      match nissanClassify s.lastDuration with
      | .invalid => ({ s with parserStep := .reset }, none)
      | c =>
        let data := addBitData s.decodeData c.toBool
        let cnt := s.decodeCountBit + 1
        if 72 ≤ cnt then
          let frame := nissanBytes data
          let r : NissanState × Option (List Nat) :=
            if nissanCheckCrc frame then
              ({ s with
                  parserStep := .reset, decodeData := data,
                  decodeCountBit := cnt,
                  generic := nissanAnalyze s.generic frame }, some frame)
            else
              ({ s with
                  parserStep := .reset, decodeData := data,
                  decodeCountBit := cnt }, none)
          ({ r.1 with lastLevel := level, lastDuration := duration }, r.2)
        else
          ({ s with
              decodeData := data, decodeCountBit := cnt,
              lastLevel := level, lastDuration := duration }, none)

def nissanRun (s : NissanState) :
    List (Bool × Nat) → NissanState × List (List Nat)
  | [] => (s, [])
  | (l, d) :: rest =>
    let r := nissanFeed s l d
    let r' := nissanRun r.1 rest
    (r'.1, r.2.toList ++ r'.2)

/-! ### Hyundai decoder (src/protocols/hyundai_tpms.c) -/

inductive HyundaiStep where
  | reset | preamble | data
deriving DecidableEq

structure HyundaiState where
  parserStep : HyundaiStep
  decodeData : Nat
  decodeCountBit : Nat
  manchesterState : ManchesterState
  generic : Generic
deriving DecidableEq

def hyundaiInit : HyundaiState :=
  { parserStep := .reset, decodeData := 0, decodeCountBit := 0,
    manchesterState := .start1, generic := .init }

/-- tpms_protocol_decoder_hyundai_reset. -/
def hyundaiReset (s : HyundaiState) : HyundaiState :=
  { s with parserStep := .reset, manchesterState := .start1 }

/-- hyundai_crc8 over 9 bytes compared with byte 9
(tpms_protocol_hyundai_check_crc): CRC-8 poly 0x31, init 0. -/
def hyundaiCheckCrc (d : List Nat) : Bool :=
  crc8 0x31 0 (d.take 9) == d.getD 9 0

/-- tpms_protocol_hyundai_analyze (pressure clamped at 0 kPa before the
bar conversion). -/
def hyundaiAnalyze (g : Generic) (d : List Nat) : Generic :=
  let b := fun i => d.getD i 0
  let kpa : ℚ := max ((b 8 : ℚ) - 40) 0
  { g with
    id := (b 3 <<< 24) ||| (b 4 <<< 16) ||| (b 5 <<< 8) ||| b 6,
    pressure := kpa * (1 / 100),
    temperature := (b 9 : ℚ) - 50,
    batteryLow := if b 7 &&& 0x40 = 0x40 then 1 else 0,
    data := (List.range 8).foldl (fun a i => a ||| (b i <<< ((7 - i) * 8))) 0,
    dataCountBit := 80 }

/-- Byte assembly of the Hyundai data step: the literal preamble bytes
0x55 0x55 0x56 re-prepended, then seven bytes from the accumulator. -/
def hyundaiBytes (data : Nat) : List Nat :=
  0x55 :: 0x55 :: 0x56 ::
    ((List.range 7).map fun i => (data >>> ((6 - i) * 8)) % 256)

/-- tpms_protocol_decoder_hyundai_feed. -/
def hyundaiFeed (s : HyundaiState) (level : Bool) (duration : Nat) :
    HyundaiState × Option (List Nat) :=
  match s.parserStep with
  | .reset =>
    if level ∧ DURATION_DIFF duration 50 < 15 then
      ({ s with
          parserStep := .preamble, decodeData := 0, decodeCountBit := 0,
          manchesterState := .start1 }, none)
    else (s, none)
  | .preamble =>
    if DURATION_DIFF duration 50 < 15 then
      let data := addBitData s.decodeData level
      let cnt := s.decodeCountBit + 1
      if 28 ≤ cnt then
        let pattern := data % 2 ^ 28
        let s1 : HyundaiState :=
          if pattern = 0x5555556 then
            { s with
                parserStep := .data, decodeData := 0,
                decodeCountBit := 0, manchesterState := .start1 }
          else { s with decodeData := data, decodeCountBit := cnt }
        let s2 : HyundaiState :=
          if 40 < s1.decodeCountBit then { s1 with parserStep := .reset }
          else s1
        (s2, none)
      else ({ s with decodeData := data, decodeCountBit := cnt }, none)
    else ({ s with parserStep := .reset }, none)
  | .data =>
    if DURATION_DIFF duration 50 < 15 then
      let m := manchesterAdvance s.manchesterState level
      match m.2 with
      | none => ({ s with manchesterState := m.1 }, none)
      | some bit =>
        let data := addBitData s.decodeData bit
        let cnt := s.decodeCountBit + 1
        if 80 ≤ cnt then
          let frame := hyundaiBytes data
          if hyundaiCheckCrc frame then
            ({ s with
                parserStep := .reset, decodeData := data,
                decodeCountBit := cnt, manchesterState := m.1,
                generic := hyundaiAnalyze s.generic frame }, some frame)
          else
            ({ s with
                parserStep := .reset, decodeData := data,
                decodeCountBit := cnt, manchesterState := m.1 }, none)
        else
          ({ s with
              decodeData := data, decodeCountBit := cnt,
              manchesterState := m.1 }, none)
    else ({ s with parserStep := .reset }, none)

def hyundaiRun (s : HyundaiState) :
    List (Bool × Nat) → HyundaiState × List (List Nat)
  | [] => (s, [])
  | (l, d) :: rest =>
    let r := hyundaiFeed s l d
    let r' := hyundaiRun r.1 rest
    (r'.1, r.2.toList ++ r'.2)

/-! ### Serialize/deserialize boundary -/

inductive SubGhzProtocolStatus where
  | ok
  | errorValueBitCount
deriving DecidableEq

/-- The fields of the persisted record relevant to deserialization. -/
structure SerializedRecord where
  rawData : Nat
  bitCount : Nat
deriving DecidableEq

/-- Modelled from the spec (section 6, persisted-state boundary):
`tpms_block_generic_deserialize_check_count_bit` is repository code not
under src/; per the spec it must reject (failure status) any record whose
bit count does not equal the protocol's fixed `min_count_bit_for_found`,
and the well-formed case restores the reading and succeeds. -/
def deserializeCheckCountBit (required : Nat) (r : SerializedRecord) :
    SubGhzProtocolStatus :=
  if r.bitCount = required then .ok else .errorValueBitCount

/-- tpms_protocol_decoder_ford_deserialize: checks against
min_count_bit_for_found = 64. -/
def fordDeserialize (r : SerializedRecord) : SubGhzProtocolStatus :=
  deserializeCheckCountBit 64 r

/-- tpms_protocol_decoder_gm_deserialize: checks against 72. -/
def gmDeserialize (r : SerializedRecord) : SubGhzProtocolStatus :=
  deserializeCheckCountBit 72 r

/-- tpms_protocol_decoder_toyota_deserialize: checks against 72. -/
def toyotaDeserialize (r : SerializedRecord) : SubGhzProtocolStatus :=
  deserializeCheckCountBit 72 r

/-- tpms_protocol_decoder_nissan_deserialize: checks against 72. -/
def nissanDeserialize (r : SerializedRecord) : SubGhzProtocolStatus :=
  deserializeCheckCountBit 72 r

/-- tpms_protocol_decoder_hyundai_deserialize: checks against 80. -/
def hyundaiDeserialize (r : SerializedRecord) : SubGhzProtocolStatus :=
  deserializeCheckCountBit 80 r

/-- Modelled from the spec: the Schrader decoder is a peer module not
under src/ and follows the same uniform contract; its deserialize
validates against its own fixed `min_count_bit_for_found`, whose value
the spec does not give, so it is left as a parameter. -/
def schraderDeserialize (minBits : Nat) (r : SerializedRecord) :
    SubGhzProtocolStatus :=
  deserializeCheckCountBit minBits r

/-! ### Shared decoder shape (for the Schrader module) -/

inductive GenStep where
  | reset | sync | data
deriving DecidableEq

structure GenState where
  parserStep : GenStep
  decodeData : Nat
  decodeCountBit : Nat
  manchesterState : ManchesterState
deriving DecidableEq

def genInit : GenState :=
  { parserStep := .reset, decodeData := 0, decodeCountBit := 0,
    manchesterState := .start1 }

/-- Modelled from the spec (sections 2 and 4.4): the Schrader decoder's
internals are a peer module not under src/ that "follows the same shape"
as the five decoders above.  This is that shared shape — Reset →
sync-search → data-collection → validate-then-emit → Reset — with the
tolerance predicate, sync constants, overflow ceiling, frame length,
byte assembly and checksum left as parameters.  As in all five concrete
decoders, checksum validation gates emission. -/
def genFeed (inTol : Nat → Bool) (syncWidth syncConst ceiling minBits : Nat)
    (assemble : Nat → List Nat) (validate : List Nat → Bool)
    (s : GenState) (level : Bool) (duration : Nat) :
    GenState × Option (List Nat) :=
  match s.parserStep with
  | .reset =>
    if level ∧ inTol duration then
      ({ s with
          parserStep := .sync, decodeData := 0, decodeCountBit := 0,
          manchesterState := .start1 }, none)
    else (s, none)
  | .sync =>
    if inTol duration then
      let data := addBitData s.decodeData level
      let cnt := s.decodeCountBit + 1
      if syncWidth ≤ cnt then
        let window := (data >>> (cnt - syncWidth)) % 2 ^ syncWidth
        let s1 : GenState :=
          if window = syncConst then
            { s with
                parserStep := .data, decodeData := 0,
                decodeCountBit := 0, manchesterState := .start1 }
          else { s with decodeData := data, decodeCountBit := cnt }
        let s2 : GenState :=
          if ceiling < s1.decodeCountBit then { s1 with parserStep := .reset }
          else s1
        (s2, none)
      else ({ s with decodeData := data, decodeCountBit := cnt }, none)
    else ({ s with parserStep := .reset }, none)
  | .data =>
    if inTol duration then
      let m := manchesterAdvance s.manchesterState level
      match m.2 with
      | none => ({ s with manchesterState := m.1 }, none)
      | some bit =>
        let data := addBitData s.decodeData bit
        let cnt := s.decodeCountBit + 1
        if minBits ≤ cnt then
          let frame := assemble data
          if validate frame then
            ({ s with
                parserStep := .reset, decodeData := data,
                decodeCountBit := cnt, manchesterState := m.1 }, some frame)
          else
            ({ s with
                parserStep := .reset, decodeData := data,
                decodeCountBit := cnt, manchesterState := m.1 }, none)
        else
          ({ s with
              decodeData := data, decodeCountBit := cnt,
              manchesterState := m.1 }, none)
    else ({ s with parserStep := .reset }, none)

def genRun (inTol : Nat → Bool) (syncWidth syncConst ceiling minBits : Nat)
    (assemble : Nat → List Nat) (validate : List Nat → Bool)
    (s : GenState) : List (Bool × Nat) → GenState × List (List Nat)
  | [] => (s, [])
  | (l, d) :: rest =>
    let r := genFeed inTol syncWidth syncConst ceiling minBits assemble
      validate s l d
    let r' := genRun inTol syncWidth syncConst ceiling minBits assemble
      validate r.1 rest
    (r'.1, r.2.toList ++ r'.2)

/-! ### Concrete edge sequences -/

/-- A complete Toyota reception: one edge to leave Reset, the 12 sync
bits 0xA9E, then the 72 bits of the frame 00 00 00 00 00 00 00 00 BF
(0xBF is the CRC-8/poly 0x07/init 0x80 of eight zero bytes), every edge
at the nominal 52 µs bit period. -/
def toyotaZeroFrameEdges : List (Bool × Nat) :=
  (true, 52) ::
    ([true, false, true, false, true, false, false, true, true, true, true,
        false] ++
      List.replicate 64 false ++
      [true, false, true, true, true, true, true, true]).map fun b => (b, 52)

/-- The frame assembled by the Toyota data step at the end of
`toyotaZeroFrameEdges`. -/
def toyotaZeroFrame : List Nat := [0, 0, 0, 0, 0, 0, 0, 0, 0xbf]

/-! ## Helper lemmas -/

set_option maxRecDepth 10000

theorem lor_two_pow_mul_add : ∀ (k a x : Nat), x < 2 ^ k →
    (2 ^ k * a) ||| x = 2 ^ k * a + x := by
  intro k
  induction k with
  | zero =>
    intro a x hx
    interval_cases x
    simp
  | succ k ih =>
    intro a x hx
    have hb : Nat.bit (x.testBit 0) (x >>> 1) = x :=
      Nat.bit_testBit_zero_shiftRight_one x
    have h2 : 2 ^ (k + 1) * a = Nat.bit false (2 ^ k * a) := by
      rw [Nat.bit_val]
      simp [Nat.pow_succ]
      ring
    have hx' : x >>> 1 < 2 ^ k := by
      rw [Nat.shiftRight_one]
      omega
    have ht : (x.testBit 0).toNat = x % 2 := by
      rw [Nat.testBit_zero]
      rcases Nat.mod_two_eq_zero_or_one x with h | h <;> simp [h]
    rw [h2, ← hb, Nat.lor_bit, ih a _ hx']
    simp only [Bool.false_or, Nat.bit_val, ht, Nat.shiftRight_one,
      Bool.toNat_false]
    omega

theorem lor_shiftLeft_add (a x k : Nat) (hx : x < 2 ^ k) :
    (a <<< k) ||| x = a * 2 ^ k + x := by
  rw [Nat.shiftLeft_eq, Nat.mul_comm, lor_two_pow_mul_add _ _ _ hx,
    Nat.mul_comm]

/-- Four bytes composed with shifted bitwise or form the big-endian
base-256 value. -/
theorem byteBE4 (b0 b1 b2 b3 : Nat) (h0 : b0 < 256) (h1 : b1 < 256)
    (h2 : b2 < 256) (h3 : b3 < 256) :
    (b0 <<< 24) ||| (b1 <<< 16) ||| (b2 <<< 8) ||| b3 =
      ((b0 * 256 + b1) * 256 + b2) * 256 + b3 := by
  rw [Nat.lor_assoc, Nat.lor_assoc]
  rw [lor_shiftLeft_add b2 b3 8 (by omega)]
  rw [lor_shiftLeft_add b1 _ 16 (by omega)]
  rw [lor_shiftLeft_add b0 _ 24 (by omega)]
  ring

theorem getD_lt_256 (B : List Nat) (hB : ∀ b ∈ B, b < 256) (i : Nat) :
    B.getD i 0 < 256 := by
  by_cases h : i < B.length
  · exact hB _ (by
      rw [List.getD_eq_getElem B 0 h]
      exact List.getElem_mem h)
  · rw [List.getD_eq_default]
    · omega
    · omega

theorem foldl_add_mod (l : List Nat) : ∀ a : Nat,
    l.foldl (fun x b => (x + b) % 256) (a % 256) = (a + l.sum) % 256 := by
  induction l with
  | nil => intro a; simp
  | cons b t ih =>
    intro a
    simp only [List.foldl_cons, List.sum_cons]
    rw [Nat.mod_add_mod, ih (a + b), Nat.add_assoc]

/-! ## Claims -/

/-- Claim C7: for every 8-byte buffer B, the Ford validation function
returns true if and only if the arithmetic sum of bytes 0 through 6
modulo 256 equals byte 7. -/
theorem ford_checksum_iff (B : List Nat) (h8 : B.length = 8)
    (hB : ∀ b ∈ B, b < 256) :
    fordCheckChecksum B = true ↔ (B.take 7).sum % 256 = B.getD 7 0 := by
  have h := foldl_add_mod (B.take 7) 0
  simp only [Nat.zero_mod, Nat.zero_add] at h
  unfold fordCheckChecksum
  rw [h, beq_iff_eq]

/-- Witness for C7: a concrete checksum-valid 8-byte buffer. -/
theorem ford_checksum_iff_witness :
    fordCheckChecksum [0x12, 0x34, 0x56, 0x78, 0x64, 0x10, 0x00, 0x88] =
      true :=
  (ford_checksum_iff _ (by decide) (by decide)).mpr (by decide)

/-- Claim C6: for every checksum-valid 8-byte Ford frame, the analysis
sets sensor_id to the big-endian value of bytes 0..3, pressure to
(raw9bit × 0.25) PSI × 0.0689476 bar with byte 4 plus bit 0x20 of byte 6
as ninth bit, and temperature to (byte5 & 0x7F) − 56 °C when bit 7 of
byte 5 is clear and to the sentinel −1000 when set; in particular
pressure byte 0x64 with the flag clear yields raw 100, 25.0 PSI and a
bar value within 0.001 of 1.724.  Float arithmetic is modelled exactly
over ℚ. -/
theorem ford_analyze_fields (g : Generic) (B : List Nat)
    (hlen : B.length = 8) (hB : ∀ b ∈ B, b < 256)
    (hsum : fordCheckChecksum B = true) :
    (fordAnalyze g B).id =
      ((B.getD 0 0 * 256 + B.getD 1 0) * 256 + B.getD 2 0) * 256 +
        B.getD 3 0 ∧
    (fordAnalyze g B).pressure =
      ((B.getD 4 0 : ℚ) + (if B.getD 6 0 &&& 0x20 ≠ 0 then 256 else 0)) *
        (1 / 4) * (689476 / 10 ^ 7) ∧
    (B.getD 5 0 &&& 0x80 = 0 →
      (fordAnalyze g B).temperature = ((B.getD 5 0 &&& 0x7f : Nat) : ℚ) - 56) ∧
    (B.getD 5 0 &&& 0x80 ≠ 0 → (fordAnalyze g B).temperature = -1000) ∧
    (B.getD 4 0 = 0x64 → B.getD 6 0 &&& 0x20 = 0 →
      fordPressureRaw B = 100 ∧
      (fordPressureRaw B : ℚ) * (1 / 4) = 25 ∧
      (fordAnalyze g B).pressure = 172369 / 100000 ∧
      |(fordAnalyze g B).pressure - 1724 / 1000| < 1 / 1000) := by
  have hcast : (fordPressureRaw B : ℚ) =
      (B.getD 4 0 : ℚ) + (if B.getD 6 0 &&& 0x20 ≠ 0 then 256 else 0) := by
    unfold fordPressureRaw
    split <;> push_cast <;> ring
  refine ⟨?_, ?_, ?_, ?_, ?_⟩
  · show (B.getD 0 0 <<< 24) ||| (B.getD 1 0 <<< 16) |||
      (B.getD 2 0 <<< 8) ||| B.getD 3 0 = _
    exact byteBE4 _ _ _ _ (getD_lt_256 B hB 0) (getD_lt_256 B hB 1)
      (getD_lt_256 B hB 2) (getD_lt_256 B hB 3)
  · show (fordPressureRaw B : ℚ) * (1 / 4) * (689476 / 10 ^ 7) = _
    rw [hcast]
  · intro h
    show (if B.getD 5 0 &&& 0x80 = 0 then _ else _) = _
    rw [if_pos h]
  · intro h
    show (if B.getD 5 0 &&& 0x80 = 0 then _ else _) = _
    rw [if_neg h]
  · intro h4 h6
    have hraw : fordPressureRaw B = 100 := by
      unfold fordPressureRaw
      rw [h4, if_neg (by omega)]
    refine ⟨hraw, by rw [hraw]; norm_num, ?_, ?_⟩
    · show (fordPressureRaw B : ℚ) * (1 / 4) * (689476 / 10 ^ 7) = _
      rw [hraw]
      norm_num
    · show |(fordPressureRaw B : ℚ) * (1 / 4) * (689476 / 10 ^ 7) -
        1724 / 1000| < 1 / 1000
      rw [hraw]
      rw [abs_sub_lt_iff]
      norm_num

/-- Witness for C6: the theorem applied to the concrete checksum-valid
frame 12 34 56 78 64 10 00 88 (id 0x12345678, pressure byte 0x64, flag
byte with bit 0x20 clear, valid temperature byte 0x10). -/
theorem ford_analyze_fields_witness :
    (fordAnalyze Generic.init
        [0x12, 0x34, 0x56, 0x78, 0x64, 0x10, 0x00, 0x88]).id =
      0x12345678 ∧
    (fordAnalyze Generic.init
        [0x12, 0x34, 0x56, 0x78, 0x64, 0x10, 0x00, 0x88]).pressure =
      172369 / 100000 ∧
    (fordAnalyze Generic.init
        [0x12, 0x34, 0x56, 0x78, 0x64, 0x10, 0x00, 0x88]).temperature =
      -40 := by
  have h := ford_analyze_fields Generic.init
    [0x12, 0x34, 0x56, 0x78, 0x64, 0x10, 0x00, 0x88]
    (by decide) (by decide) (by decide)
  refine ⟨?_, (h.2.2.2.2 (by decide) (by decide)).2.2.1, ?_⟩
  · rw [h.1]
    norm_num
  · rw [h.2.2.1 (by decide),
      show [0x12, 0x34, 0x56, 0x78, 0x64, 0x10, 0x00, 0x88].getD 5 0 &&&
          0x7f = 16 from by decide]
    norm_num

/-- Claim C10: when a CRC-valid Toyota frame fails the pressure
redundancy cross-check, the stored reading is partially overwritten:
sensor_id is updated to the new frame's bytes 0..3, while pressure,
temperature, battery_low, raw data and bit count keep their previous
values. -/
theorem toyota_crossvalidation_partial_overwrite (g : Generic)
    (B : List Nat) (hcrc : toyotaCheckCrc B = true)
    (hne : toyotaPressure1 B ≠ toyotaPressure2 B) :
    (toyotaAnalyze g B).id = toyotaId B ∧
    (toyotaAnalyze g B).pressure = g.pressure ∧
    (toyotaAnalyze g B).temperature = g.temperature ∧
    (toyotaAnalyze g B).batteryLow = g.batteryLow ∧
    (toyotaAnalyze g B).data = g.data ∧
    (toyotaAnalyze g B).dataCountBit = g.dataCountBit := by
  unfold toyotaAnalyze
  simp [if_pos hne]

/-- Witness for C10: the theorem applied to a reading with distinctive
field values and the CRC-valid all-zero frame, whose two pressure copies
are 0x00 and 0xFF. -/
theorem toyota_crossvalidation_partial_overwrite_witness :
    (toyotaAnalyze
        { id := 5, pressure := 3 / 2, temperature := -7, batteryLow := 1,
          data := 99, dataCountBit := 72 } toyotaZeroFrame).id = 0 ∧
    (toyotaAnalyze
        { id := 5, pressure := 3 / 2, temperature := -7, batteryLow := 1,
          data := 99, dataCountBit := 72 } toyotaZeroFrame).pressure =
      3 / 2 ∧
    (toyotaAnalyze
        { id := 5, pressure := 3 / 2, temperature := -7, batteryLow := 1,
          data := 99, dataCountBit := 72 } toyotaZeroFrame).temperature =
      -7 := by
  have h := toyota_crossvalidation_partial_overwrite
    { id := 5, pressure := 3 / 2, temperature := -7, batteryLow := 1,
      data := 99, dataCountBit := 72 } toyotaZeroFrame
    (by decide) (by decide)
  exact ⟨by rw [h.1]; decide, h.2.1, h.2.2.1⟩

/-- Claim C1 (code evidence): feeding the Toyota decoder a full
reception of the CRC-valid frame 00..00 BF — whose two redundant
pressure encodings disagree (0x00 vs 0xFF) — still invokes the result
callback: the emission list of the run is non-empty.  The analysis is
aborted (only the id field is written), but
tpms_protocol_decoder_toyota_feed calls the callback unconditionally
after the CRC check, contradicting the specified discard policy. -/
theorem toyota_crossvalidation_callback_still_invoked :
    (toyotaRun toyotaInit toyotaZeroFrameEdges).2 = [toyotaZeroFrame] ∧
    toyotaCheckCrc toyotaZeroFrame = true ∧
    toyotaPressure1 toyotaZeroFrame = 0x00 ∧
    toyotaPressure2 toyotaZeroFrame = 0xff := by
  exact ⟨by decide, by decide, by decide, by decide⟩

/-- Claim C5 (counterexample): after two in-tolerance edges the Ford
decoder holds one accumulated bit; calling reset returns the step to
Reset but leaves that bit and its count in the accumulator, so reset
does not clear the accumulated bits as claimed. -/
theorem reset_zero_bits_counterexample :
    (fordReset (fordRun fordInit [(true, 52), (true, 52)]).1).parserStep =
      FordStep.reset ∧
    (fordReset (fordRun fordInit [(true, 52), (true, 52)]).1).decodeCountBit =
      1 ∧
    (fordReset (fordRun fordInit [(true, 52), (true, 52)]).1).decodeData =
      1 := by
  exact ⟨by decide, by decide, by decide⟩

/-- Claim C5 (amended): for every decoder, reset from any state returns
the step to Reset and reinitializes the line-code sub-state (Manchester
phase, PWM lookback, Toyota sync-tracking fields), but it does not clear
the bit accumulator or its count — those are cleared by feed on the next
Reset-to-sync transition. -/
theorem reset_sets_step_preserves_accumulator :
    (∀ s : FordState, (fordReset s).parserStep = .reset ∧
      (fordReset s).manchesterState = .start1 ∧
      (fordReset s).decodeData = s.decodeData ∧
      (fordReset s).decodeCountBit = s.decodeCountBit ∧
      (fordReset s).generic = s.generic) ∧
    (∀ s : GMState, (gmReset s).parserStep = .reset ∧
      (gmReset s).manchesterState = .start1 ∧
      (gmReset s).decodeData = s.decodeData ∧
      (gmReset s).decodeCountBit = s.decodeCountBit ∧
      (gmReset s).generic = s.generic) ∧
    (∀ s : ToyotaState, (toyotaReset s).parserStep = .reset ∧
      (toyotaReset s).manchesterBitCount = 0 ∧
      (toyotaReset s).lookingForSync = true ∧
      (toyotaReset s).syncFoundBits = 0 ∧
      (toyotaReset s).decodeData = s.decodeData ∧
      (toyotaReset s).decodeCountBit = s.decodeCountBit ∧
      (toyotaReset s).generic = s.generic) ∧
    (∀ s : NissanState, (nissanReset s).parserStep = .reset ∧
      (nissanReset s).lastLevel = false ∧
      (nissanReset s).lastDuration = 0 ∧
      (nissanReset s).decodeData = s.decodeData ∧
      (nissanReset s).decodeCountBit = s.decodeCountBit ∧
      (nissanReset s).generic = s.generic) ∧
    (∀ s : HyundaiState, (hyundaiReset s).parserStep = .reset ∧
      (hyundaiReset s).manchesterState = .start1 ∧
      (hyundaiReset s).decodeData = s.decodeData ∧
      (hyundaiReset s).decodeCountBit = s.decodeCountBit ∧
      (hyundaiReset s).generic = s.generic) := by
  refine ⟨fun s => ⟨rfl, rfl, rfl, rfl, rfl⟩,
    fun s => ⟨rfl, rfl, rfl, rfl, rfl⟩,
    fun s => ⟨rfl, rfl, rfl, rfl, rfl, rfl, rfl⟩,
    fun s => ⟨rfl, rfl, rfl, rfl, rfl, rfl⟩,
    fun s => ⟨rfl, rfl, rfl, rfl, rfl⟩⟩

/-- Claim C9: for every protocol, deserialize returns a failure status
whenever the record's bit count does not equal that protocol's fixed
min_count_bit_for_found (64 Ford, 72 GM/Nissan/Toyota, 80 Hyundai; the
Schrader module is modelled from the spec with its fixed width as a
parameter). -/
theorem deserialize_bit_count_validation (r : SerializedRecord) :
    (r.bitCount ≠ 64 → fordDeserialize r ≠ .ok) ∧
    (r.bitCount ≠ 72 → gmDeserialize r ≠ .ok) ∧
    (r.bitCount ≠ 72 → toyotaDeserialize r ≠ .ok) ∧
    (r.bitCount ≠ 72 → nissanDeserialize r ≠ .ok) ∧
    (r.bitCount ≠ 80 → hyundaiDeserialize r ≠ .ok) ∧
    (∀ minBits : Nat, r.bitCount ≠ minBits →
      schraderDeserialize minBits r ≠ .ok) := by
  refine ⟨fun h => ?_, fun h => ?_, fun h => ?_, fun h => ?_, fun h => ?_,
    fun minBits h => ?_⟩ <;>
    simp [fordDeserialize, gmDeserialize, toyotaDeserialize,
      nissanDeserialize, hyundaiDeserialize, schraderDeserialize,
      deserializeCheckCountBit, h]

/-- Witness for C9: a record with bit count 1 is rejected by all six
deserializers (Schrader instantiated at width 64). -/
theorem deserialize_bit_count_validation_witness :
    fordDeserialize ⟨0, 1⟩ ≠ .ok ∧ gmDeserialize ⟨0, 1⟩ ≠ .ok ∧
    toyotaDeserialize ⟨0, 1⟩ ≠ .ok ∧ nissanDeserialize ⟨0, 1⟩ ≠ .ok ∧
    hyundaiDeserialize ⟨0, 1⟩ ≠ .ok ∧
    schraderDeserialize 64 ⟨0, 1⟩ ≠ .ok := by
  have h := deserialize_bit_count_validation ⟨0, 1⟩
  exact ⟨h.1 (by decide), h.2.1 (by decide), h.2.2.1 (by decide),
    h.2.2.2.1 (by decide), h.2.2.2.2.1 (by decide),
    h.2.2.2.2.2 64 (by decide)⟩

/-- Claim C3 (counterexample): drive the Ford decoder into sync search
and feed the bit 0 followed by the 16 bits 0xAAA9, all at the nominal
bit period.  After the 17th bit the most recent 16 bits of the
accumulator equal the sync constant 0xAAA9, yet the decoder is still in
the sync-search step with the accumulator uncleared: the code compares
`decode_data >> (decode_count_bit - 16)`, the window at the OLDEST
accumulated bit, not the most recent 16 bits. -/
theorem sync_window_most_recent_counterexample :
    (fordRun fordInit ((true, 52) ::
        ([false, true, false, true, false, true, false, true, false, true,
            false, true, false, true, false, false, true].map
          fun b => (b, 52)))).1.parserStep = FordStep.sync ∧
    (fordRun fordInit ((true, 52) ::
        ([false, true, false, true, false, true, false, true, false, true,
            false, true, false, true, false, false, true].map
          fun b => (b, 52)))).1.decodeCountBit = 17 ∧
    (fordRun fordInit ((true, 52) ::
        ([false, true, false, true, false, true, false, true, false, true,
            false, true, false, true, false, false, true].map
          fun b => (b, 52)))).1.decodeData % 2 ^ 16 = 0xaaa9 := by
  exact ⟨by decide, by decide, by decide⟩

/-- Claim C3 (amended): in the sync-search state each decoder appends
the new bit and, once at least N bits have accumulated, compares an
N-bit window of the accumulator against the sync constant; Hyundai
(0x5555556 over 28 bits) and Nissan (0x5A over 8 bits) use the most
recent N bits, while Ford (0xAAA9), GM (0x555D) and Toyota (0xA9E) use
the window starting at the oldest accumulated bit,
`decode_data >> (count − N)`; on match the accumulator and count are
cleared and the decoder moves to the Data state. -/
theorem sync_window_characterization :
    (∀ (s : FordState) (level : Bool) (duration : Nat),
      s.parserStep = .sync → DURATION_DIFF duration 52 < 15 →
      16 ≤ s.decodeCountBit + 1 → s.decodeCountBit < 64 →
      ((fordFeed s level duration).1.parserStep = FordStep.data ↔
        (addBitData s.decodeData level >>>
          (s.decodeCountBit + 1 - 16)) % 2 ^ 16 = 0xaaa9) ∧
      ((addBitData s.decodeData level >>>
          (s.decodeCountBit + 1 - 16)) % 2 ^ 16 = 0xaaa9 →
        (fordFeed s level duration).1.decodeData = 0 ∧
        (fordFeed s level duration).1.decodeCountBit = 0)) ∧
    (∀ (s : GMState) (level : Bool) (duration : Nat),
      s.parserStep = .preamble → DURATION_DIFF duration 100 < 20 →
      16 ≤ s.decodeCountBit + 1 → s.decodeCountBit < 64 →
      ((gmFeed s level duration).1.parserStep = GMStep.data ↔
        (addBitData s.decodeData level >>>
          (s.decodeCountBit + 1 - 16)) % 2 ^ 16 = 0x555d) ∧
      ((addBitData s.decodeData level >>>
          (s.decodeCountBit + 1 - 16)) % 2 ^ 16 = 0x555d →
        (gmFeed s level duration).1.decodeData = 0 ∧
        (gmFeed s level duration).1.decodeCountBit = 0)) ∧
    (∀ (s : ToyotaState) (level : Bool) (duration : Nat),
      s.parserStep = .sync → DURATION_DIFF duration 52 < 15 →
      12 ≤ s.decodeCountBit + 1 → s.decodeCountBit < 64 →
      ((toyotaFeed s level duration).1.parserStep = ToyotaStep.data ↔
        (addBitData s.decodeData level >>>
          (s.decodeCountBit + 1 - 12)) % 2 ^ 12 = 0xa9e) ∧
      ((addBitData s.decodeData level >>>
          (s.decodeCountBit + 1 - 12)) % 2 ^ 12 = 0xa9e →
        (toyotaFeed s level duration).1.decodeData = 0 ∧
        (toyotaFeed s level duration).1.decodeCountBit = 0)) ∧
    (∀ (s : HyundaiState) (level : Bool) (duration : Nat),
      s.parserStep = .preamble → DURATION_DIFF duration 50 < 15 →
      28 ≤ s.decodeCountBit + 1 →
      ((hyundaiFeed s level duration).1.parserStep = HyundaiStep.data ↔
        addBitData s.decodeData level % 2 ^ 28 = 0x5555556) ∧
      (addBitData s.decodeData level % 2 ^ 28 = 0x5555556 →
        (hyundaiFeed s level duration).1.decodeData = 0 ∧
        (hyundaiFeed s level duration).1.decodeCountBit = 0)) ∧
    (∀ (s : NissanState) (duration : Nat),
      s.parserStep = .preamble →
      nissanClassify s.lastDuration ≠ .invalid →
      28 ≤ s.decodeCountBit + 1 →
      ((nissanFeed s false duration).1.parserStep = NissanStep.data ↔
        addBitData s.decodeData (nissanClassify s.lastDuration).toBool %
            2 ^ 8 = 0x5a) ∧
      (addBitData s.decodeData (nissanClassify s.lastDuration).toBool %
            2 ^ 8 = 0x5a →
        (nissanFeed s false duration).1.decodeData = 0 ∧
        (nissanFeed s false duration).1.decodeCountBit = 0)) := by
  refine ⟨?_, ?_, ?_, ?_, ?_⟩
  · intro s level duration hstep htol hcnt hlt
    simp only [fordFeed, hstep, if_pos htol, if_pos hcnt]
    split
    · simp_all
    · constructor
      · constructor
        · intro hdata
          split at hdata <;> simp_all
        · intro hw
          simp_all
      · intro hw
        simp_all
  · intro s level duration hstep htol hcnt hlt
    simp only [gmFeed, hstep, if_pos htol, if_pos hcnt]
    split
    · simp_all
    · constructor
      · constructor
        · intro hdata
          split at hdata <;> simp_all
        · intro hw
          simp_all
      · intro hw
        simp_all
  · intro s level duration hstep htol hcnt hlt
    simp only [toyotaFeed, hstep, if_pos htol, if_pos hcnt]
    split
    · simp_all
    · constructor
      · constructor
        · intro hdata
          split at hdata <;> simp_all
        · intro hw
          simp_all
      · intro hw
        simp_all
  · intro s level duration hstep htol hcnt
    simp only [hyundaiFeed, hstep, if_pos htol, if_pos hcnt]
    split
    · simp_all
    · constructor
      · constructor
        · intro hdata
          split at hdata <;> simp_all
        · intro hw
          simp_all
      · intro hw
        simp_all
  · intro s duration hstep hcl hcnt
    rcases hc : nissanClassify s.lastDuration with _ | _ | _
    · simp only [nissanFeed, hstep, hc, if_pos hcnt, NissanBit.toBool]
      by_cases hw : addBitData s.decodeData true % 256 = 0x5a
      · simp_all
      · simp only [if_neg hw]
        refine ⟨⟨fun hdata => ?_, fun hww => absurd hww hw⟩,
          fun hww => absurd hww hw⟩
        rcases Nat.lt_or_ge 40 (s.decodeCountBit + 1) with h40 | h40
        · rw [if_pos h40] at hdata
          exact absurd hdata (by simp)
        · rw [if_neg (Nat.not_lt.mpr h40)] at hdata
          exact absurd hdata (by simp)
    · simp only [nissanFeed, hstep, hc, if_pos hcnt, NissanBit.toBool]
      by_cases hw : addBitData s.decodeData false % 256 = 0x5a
      · simp_all
      · simp only [if_neg hw]
        refine ⟨⟨fun hdata => ?_, fun hww => absurd hww hw⟩,
          fun hww => absurd hww hw⟩
        rcases Nat.lt_or_ge 40 (s.decodeCountBit + 1) with h40 | h40
        · rw [if_pos h40] at hdata
          exact absurd hdata (by simp)
        · rw [if_neg (Nat.not_lt.mpr h40)] at hdata
          exact absurd hdata (by simp)
    · exact absurd hc hcl

/-- Witness for C3 (amended): a Ford sync state holding the 15 bits
0x5554 receives bit 1; the window at the oldest bit equals 0xAAA9, the
decoder moves to Data and the accumulator is cleared. -/
theorem sync_window_characterization_witness :
    (fordFeed
        { parserStep := .sync, decodeData := 0x5554, decodeCountBit := 15,
          manchesterState := .start1, generic := .init }
        true 52).1.parserStep = FordStep.data ∧
    (fordFeed
        { parserStep := .sync, decodeData := 0x5554, decodeCountBit := 15,
          manchesterState := .start1, generic := .init }
        true 52).1.decodeData = 0 ∧
    (fordFeed
        { parserStep := .sync, decodeData := 0x5554, decodeCountBit := 15,
          manchesterState := .start1, generic := .init }
        true 52).1.decodeCountBit = 0 := by
  have h := sync_window_characterization.1
    { parserStep := .sync, decodeData := 0x5554, decodeCountBit := 15,
      manchesterState := .start1, generic := .init }
    true 52 (by decide) (by decide) (by decide) (by decide)
  exact ⟨h.1.mpr (by decide), (h.2 (by decide)).1, (h.2 (by decide)).2⟩

/-- Claim C4 (counterexample): a reachable Nissan state whose previous
high pulse lasted 70 µs — outside both claimed tolerance windows
(52 ± 15 and 104 ± 15) — does not reset on the next falling edge: the
code classifies 70 as bit 0 because it only checks lower bounds, so the
decoder stays in the preamble step with one accumulated bit. -/
theorem nissan_pwm_tolerance_counterexample :
    (nissanRun nissanInit
        [(true, 100), (true, 70), (false, 52)]).1.parserStep =
      NissanStep.preamble ∧
    (nissanRun nissanInit
        [(true, 100), (true, 70), (false, 52)]).1.decodeCountBit = 1 ∧
    nissanClassify 70 = NissanBit.zero ∧
    ¬(52 - 15 ≤ 70 ∧ 70 ≤ 52 + 15) ∧ ¬(104 - 15 ≤ 70 ∧ 70 ≤ 104 + 15) := by
  exact ⟨by decide, by decide, by decide, by decide, by decide⟩

/-- Claim C4 (amended): on every falling edge processed in the Nissan
preamble or data state, the preceding duration is classified as bit 1
exactly when it is at least te_long − te_delta (104 − 15, with no upper
bound), as bit 0 exactly when it lies in [te_short − te_delta,
te_long − te_delta), and the decoder resets exactly when it is below
te_short − te_delta; on a reset the accumulator is untouched, and on a
valid bit in the preamble (below the sync-check threshold) the
classified bit is appended. -/
theorem nissan_pwm_classification :
    (∀ d : Nat,
      (nissanClassify d = .one ↔ 104 - 15 ≤ d) ∧
      (nissanClassify d = .zero ↔ 52 - 15 ≤ d ∧ d < 104 - 15) ∧
      (nissanClassify d = .invalid ↔ d < 52 - 15)) ∧
    (∀ (s : NissanState) (duration : Nat),
      (s.parserStep = .preamble ∨ s.parserStep = .data) →
      nissanClassify s.lastDuration = .invalid →
      (nissanFeed s false duration).1.parserStep = .reset ∧
      (nissanFeed s false duration).1.decodeCountBit = s.decodeCountBit ∧
      (nissanFeed s false duration).1.decodeData = s.decodeData) ∧
    (∀ (s : NissanState) (duration : Nat),
      s.parserStep = .preamble →
      s.decodeCountBit + 1 < 28 →
      nissanClassify s.lastDuration ≠ .invalid →
      (nissanFeed s false duration).1.decodeData =
        addBitData s.decodeData (nissanClassify s.lastDuration).toBool ∧
      (nissanFeed s false duration).1.decodeCountBit =
        s.decodeCountBit + 1) := by
  refine ⟨?_, ?_, ?_⟩
  · intro d
    unfold nissanClassify
    refine ⟨?_, ?_, ?_⟩ <;> split_ifs with h1 h2 <;>
      simp_all <;> omega
  · intro s duration hstep hc
    rcases hstep with h | h <;>
      simp only [nissanFeed, h, hc] <;> exact ⟨rfl, rfl, rfl⟩
  · intro s duration hstep hcnt hc
    rcases hcl : nissanClassify s.lastDuration with _ | _ | _
    · simp only [nissanFeed, hstep, hcl, if_neg (by omega :
        ¬28 ≤ s.decodeCountBit + 1), NissanBit.toBool]
      exact ⟨rfl, rfl⟩
    · simp only [nissanFeed, hstep, hcl, if_neg (by omega :
        ¬28 ≤ s.decodeCountBit + 1), NissanBit.toBool]
      exact ⟨rfl, rfl⟩
    · exact absurd hcl hc

/-- Witness for C4 (amended): the classifier at 104, 70 and 10 µs, the
reset outcome on a 10 µs lookback, and a bit-1 append on a 104 µs
lookback. -/
theorem nissan_pwm_classification_witness :
    nissanClassify 104 = NissanBit.one ∧
    nissanClassify 70 = NissanBit.zero ∧
    nissanClassify 10 = NissanBit.invalid ∧
    (nissanFeed
        { parserStep := .preamble, decodeData := 3, decodeCountBit := 2,
          lastLevel := true, lastDuration := 10, generic := .init }
        false 52).1.parserStep = NissanStep.reset ∧
    (nissanFeed
        { parserStep := .preamble, decodeData := 3, decodeCountBit := 2,
          lastLevel := true, lastDuration := 104, generic := .init }
        false 52).1.decodeData = 7 := by
  have h1 := (nissan_pwm_classification.1 104).1.mpr (by decide)
  have h2 := (nissan_pwm_classification.1 70).2.1.mpr (by decide)
  have h3 := (nissan_pwm_classification.1 10).2.2.mpr (by decide)
  have h4 := nissan_pwm_classification.2.1
    { parserStep := .preamble, decodeData := 3, decodeCountBit := 2,
      lastLevel := true, lastDuration := 10, generic := .init }
    52 (Or.inl rfl) (by decide)
  have h5 := nissan_pwm_classification.2.2
    { parserStep := .preamble, decodeData := 3, decodeCountBit := 2,
      lastLevel := true, lastDuration := 104, generic := .init }
    52 rfl (by decide) (by decide)
  exact ⟨h1, h2, h3, h4.1, by rw [h5.1]; decide⟩

/-! Helper lemmas for the emission-gating claim: a single feed call
emits a frame only if that frame passes the protocol's validation. -/

theorem fordFeed_emit_checked (s : FordState) (l : Bool) (d : Nat)
    (f : List Nat) (h : (fordFeed s l d).2 = some f) :
    fordCheckChecksum f = true := by
  rcases hm : (manchesterAdvance s.manchesterState l).2 with _ | b <;>
    rcases hp : s.parserStep <;>
    simp only [fordFeed, hp, hm, apply_ite Prod.snd] at h <;>
    try simp at h
  obtain ⟨-, -, hck, hf⟩ := h
  rw [← hf]
  exact hck

theorem gmFeed_emit_checked (s : GMState) (l : Bool) (d : Nat)
    (f : List Nat) (h : (gmFeed s l d).2 = some f) :
    gmCheckCrc f = true := by
  rcases hm : (manchesterAdvance s.manchesterState l).2 with _ | b <;>
    rcases hp : s.parserStep <;>
    simp only [gmFeed, hp, hm, apply_ite Prod.snd] at h <;>
    try simp at h
  obtain ⟨-, -, hck, hf⟩ := h
  rw [← hf]
  exact hck

theorem toyotaFeed_emit_checked (s : ToyotaState) (l : Bool) (d : Nat)
    (f : List Nat) (h : (toyotaFeed s l d).2 = some f) :
    toyotaCheckCrc f = true := by
  rcases hp : s.parserStep <;>
    simp only [toyotaFeed, hp, apply_ite Prod.snd] at h <;>
    try simp at h
  obtain ⟨-, -, hck, hf⟩ := h
  rw [← hf]
  exact hck

theorem nissanFeed_emit_checked (s : NissanState) (l : Bool) (d : Nat)
    (f : List Nat) (h : (nissanFeed s l d).2 = some f) :
    nissanCheckCrc f = true := by
  rcases hcl : nissanClassify s.lastDuration with _ | _ | _ <;>
    rcases hp : s.parserStep <;>
    rcases l <;>
    simp only [nissanFeed, hp, hcl, apply_ite Prod.snd] at h <;>
    try simp at h
  all_goals {
    obtain ⟨-, hck, hf⟩ := h
    rw [← hf]
    exact hck }

theorem hyundaiFeed_emit_checked (s : HyundaiState) (l : Bool) (d : Nat)
    (f : List Nat) (h : (hyundaiFeed s l d).2 = some f) :
    hyundaiCheckCrc f = true := by
  rcases hm : (manchesterAdvance s.manchesterState l).2 with _ | b <;>
    rcases hp : s.parserStep <;>
    simp only [hyundaiFeed, hp, hm, apply_ite Prod.snd] at h <;>
    try simp at h
  obtain ⟨-, -, hck, hf⟩ := h
  rw [← hf]
  exact hck

theorem genFeed_emit_checked (inTol : Nat → Bool)
    (syncWidth syncConst ceiling minBits : Nat) (assemble : Nat → List Nat)
    (validate : List Nat → Bool) (s : GenState) (l : Bool) (d : Nat)
    (f : List Nat)
    (h : (genFeed inTol syncWidth syncConst ceiling minBits assemble
      validate s l d).2 = some f) :
    validate f = true := by
  rcases hm : (manchesterAdvance s.manchesterState l).2 with _ | b <;>
    rcases hp : s.parserStep <;>
    simp only [genFeed, hp, hm, apply_ite Prod.snd] at h <;>
    try simp at h
  obtain ⟨-, -, hck, hf⟩ := h
  rw [← hf]
  exact hck

theorem fordRun_emits_checked (inputs : List (Bool × Nat)) :
    ∀ (s : FordState) (f : List Nat),
      f ∈ (fordRun s inputs).2 → fordCheckChecksum f = true := by
  induction inputs with
  | nil => intro s f h; simp [fordRun] at h
  | cons p rest ih =>
    intro s f h
    rcases p with ⟨l, d⟩
    simp only [fordRun, List.mem_append] at h
    rcases h with h | h
    · rcases he : (fordFeed s l d).2 with _ | g
      · rw [he] at h; simp at h
      · rw [he] at h
        simp at h
        rw [h]
        exact fordFeed_emit_checked s l d g he
    · exact ih _ _ h

theorem gmRun_emits_checked (inputs : List (Bool × Nat)) :
    ∀ (s : GMState) (f : List Nat),
      f ∈ (gmRun s inputs).2 → gmCheckCrc f = true := by
  induction inputs with
  | nil => intro s f h; simp [gmRun] at h
  | cons p rest ih =>
    intro s f h
    rcases p with ⟨l, d⟩
    simp only [gmRun, List.mem_append] at h
    rcases h with h | h
    · rcases he : (gmFeed s l d).2 with _ | g
      · rw [he] at h; simp at h
      · rw [he] at h
        simp at h
        rw [h]
        exact gmFeed_emit_checked s l d g he
    · exact ih _ _ h

theorem toyotaRun_emits_checked (inputs : List (Bool × Nat)) :
    ∀ (s : ToyotaState) (f : List Nat),
      f ∈ (toyotaRun s inputs).2 → toyotaCheckCrc f = true := by
  induction inputs with
  | nil => intro s f h; simp [toyotaRun] at h
  | cons p rest ih =>
    intro s f h
    rcases p with ⟨l, d⟩
    simp only [toyotaRun, List.mem_append] at h
    rcases h with h | h
    · rcases he : (toyotaFeed s l d).2 with _ | g
      · rw [he] at h; simp at h
      · rw [he] at h
        simp at h
        rw [h]
        exact toyotaFeed_emit_checked s l d g he
    · exact ih _ _ h

theorem nissanRun_emits_checked (inputs : List (Bool × Nat)) :
    ∀ (s : NissanState) (f : List Nat),
      f ∈ (nissanRun s inputs).2 → nissanCheckCrc f = true := by
  induction inputs with
  | nil => intro s f h; simp [nissanRun] at h
  | cons p rest ih =>
    intro s f h
    rcases p with ⟨l, d⟩
    simp only [nissanRun, List.mem_append] at h
    rcases h with h | h
    · rcases he : (nissanFeed s l d).2 with _ | g
      · rw [he] at h; simp at h
      · rw [he] at h
        simp at h
        rw [h]
        exact nissanFeed_emit_checked s l d g he
    · exact ih _ _ h

theorem hyundaiRun_emits_checked (inputs : List (Bool × Nat)) :
    ∀ (s : HyundaiState) (f : List Nat),
      f ∈ (hyundaiRun s inputs).2 → hyundaiCheckCrc f = true := by
  induction inputs with
  | nil => intro s f h; simp [hyundaiRun] at h
  | cons p rest ih =>
    intro s f h
    rcases p with ⟨l, d⟩
    simp only [hyundaiRun, List.mem_append] at h
    rcases h with h | h
    · rcases he : (hyundaiFeed s l d).2 with _ | g
      · rw [he] at h; simp at h
      · rw [he] at h
        simp at h
        rw [h]
        exact hyundaiFeed_emit_checked s l d g he
    · exact ih _ _ h

theorem genRun_emits_checked (inTol : Nat → Bool)
    (syncWidth syncConst ceiling minBits : Nat) (assemble : Nat → List Nat)
    (validate : List Nat → Bool) (inputs : List (Bool × Nat)) :
    ∀ (s : GenState) (f : List Nat),
      f ∈ (genRun inTol syncWidth syncConst ceiling minBits assemble
        validate s inputs).2 → validate f = true := by
  induction inputs with
  | nil => intro s f h; simp [genRun] at h
  | cons p rest ih =>
    intro s f h
    rcases p with ⟨l, d⟩
    simp only [genRun, List.mem_append] at h
    rcases h with h | h
    · rcases he : (genFeed inTol syncWidth syncConst ceiling minBits
          assemble validate s l d).2 with _ | g
      · rw [he] at h; simp at h
      · rw [he] at h
        simp at h
        rw [h]
        exact genFeed_emit_checked inTol syncWidth syncConst ceiling
          minBits assemble validate s l d g he
    · exact ih _ _ h

/-- Claim C2: for every decoder and every sequence of feed calls from
the initial state, the result callback is invoked only when the
assembled byte buffer passes that protocol's checksum/CRC validation:
every frame in the run's emission list validates.  (The Schrader module
is not under src/; it is covered by the spec-modelled shared decoder
shape `genFeed`, universally over its parameters.) -/
theorem emission_gated_by_validation :
    (∀ (inputs : List (Bool × Nat)) (f : List Nat),
      f ∈ (fordRun fordInit inputs).2 → fordCheckChecksum f = true) ∧
    (∀ (inputs : List (Bool × Nat)) (f : List Nat),
      f ∈ (gmRun gmInit inputs).2 → gmCheckCrc f = true) ∧
    (∀ (inputs : List (Bool × Nat)) (f : List Nat),
      f ∈ (toyotaRun toyotaInit inputs).2 → toyotaCheckCrc f = true) ∧
    (∀ (inputs : List (Bool × Nat)) (f : List Nat),
      f ∈ (nissanRun nissanInit inputs).2 → nissanCheckCrc f = true) ∧
    (∀ (inputs : List (Bool × Nat)) (f : List Nat),
      f ∈ (hyundaiRun hyundaiInit inputs).2 → hyundaiCheckCrc f = true) ∧
    (∀ (inTol : Nat → Bool) (syncWidth syncConst ceiling minBits : Nat)
      (assemble : Nat → List Nat) (validate : List Nat → Bool)
      (inputs : List (Bool × Nat)) (f : List Nat),
      f ∈ (genRun inTol syncWidth syncConst ceiling minBits assemble
        validate genInit inputs).2 → validate f = true) :=
  ⟨fun inputs f h => fordRun_emits_checked inputs fordInit f h,
   fun inputs f h => gmRun_emits_checked inputs gmInit f h,
   fun inputs f h => toyotaRun_emits_checked inputs toyotaInit f h,
   fun inputs f h => nissanRun_emits_checked inputs nissanInit f h,
   fun inputs f h => hyundaiRun_emits_checked inputs hyundaiInit f h,
   fun inTol sw sc ce mb asm va inputs f h =>
     genRun_emits_checked inTol sw sc ce mb asm va inputs genInit f h⟩

/-- Witness for C2: the Toyota reception `toyotaZeroFrameEdges` emits
the frame `toyotaZeroFrame`; the theorem yields that its CRC validates,
and it does. -/
theorem emission_gated_by_validation_witness :
    toyotaZeroFrame ∈ (toyotaRun toyotaInit toyotaZeroFrameEdges).2 ∧
    toyotaCheckCrc toyotaZeroFrame = true := by
  have hmem : toyotaZeroFrame ∈ (toyotaRun toyotaInit toyotaZeroFrameEdges).2 := by
    decide
  exact ⟨hmem, emission_gated_by_validation.2.2.1 toyotaZeroFrameEdges
    toyotaZeroFrame hmem⟩

/-! Helper lemmas for the sync-overflow claim: one feed step never
leaves the decoder in its sync-search state with more than the
protocol's ceiling of accumulated bits. -/

theorem fordFeed_sync_bound (s : FordState) (l : Bool) (d : Nat) :
    (fordFeed s l d).1.parserStep = .sync →
    (fordFeed s l d).1.decodeCountBit ≤ 32 := by
  intro h
  rcases hm : (manchesterAdvance s.manchesterState l).2 with _ | b <;>
    rcases hp : s.parserStep <;>
    simp only [fordFeed, hp, hm, apply_ite Prod.fst] at h ⊢ <;>
    first
      | (split_ifs at h ⊢ <;> simp_all <;> omega)
      | simp_all

theorem gmFeed_sync_bound (s : GMState) (l : Bool) (d : Nat) :
    (gmFeed s l d).1.parserStep = .preamble →
    (gmFeed s l d).1.decodeCountBit ≤ 32 := by
  intro h
  rcases hm : (manchesterAdvance s.manchesterState l).2 with _ | b <;>
    rcases hp : s.parserStep <;>
    simp only [gmFeed, hp, hm, apply_ite Prod.fst] at h ⊢ <;>
    first
      | (split_ifs at h ⊢ <;> simp_all <;> omega)
      | simp_all

theorem toyotaFeed_sync_bound (s : ToyotaState) (l : Bool) (d : Nat) :
    (toyotaFeed s l d).1.parserStep = .sync →
    (toyotaFeed s l d).1.decodeCountBit ≤ 24 := by
  intro h
  rcases hp : s.parserStep <;>
    simp only [toyotaFeed, hp, apply_ite Prod.fst] at h ⊢ <;>
    first
      | (split_ifs at h ⊢ <;> simp_all <;> omega)
      | simp_all

theorem hyundaiFeed_sync_bound (s : HyundaiState) (l : Bool) (d : Nat) :
    (hyundaiFeed s l d).1.parserStep = .preamble →
    (hyundaiFeed s l d).1.decodeCountBit ≤ 40 := by
  intro h
  rcases hm : (manchesterAdvance s.manchesterState l).2 with _ | b <;>
    rcases hp : s.parserStep <;>
    simp only [hyundaiFeed, hp, hm, apply_ite Prod.fst] at h ⊢ <;>
    first
      | (split_ifs at h ⊢ <;> simp_all <;> omega)
      | simp_all

theorem nissanFeed_sync_bound (s : NissanState) (l : Bool) (d : Nat)
    (hs : s.parserStep = .preamble → s.decodeCountBit ≤ 40) :
    (nissanFeed s l d).1.parserStep = .preamble →
    (nissanFeed s l d).1.decodeCountBit ≤ 40 := by
  intro h
  rcases hcl : nissanClassify s.lastDuration with _ | _ | _ <;>
    rcases hp : s.parserStep <;>
    rcases l <;>
    simp only [nissanFeed, hp, hcl, apply_ite Prod.fst] at h ⊢ <;>
    first
      | (split_ifs at h ⊢ <;> simp_all <;> omega)
      | simp_all

theorem fordRun_sync_bound (inputs : List (Bool × Nat)) :
    ∀ s : FordState,
      (s.parserStep = .sync → s.decodeCountBit ≤ 32) →
      ((fordRun s inputs).1.parserStep = .sync →
        (fordRun s inputs).1.decodeCountBit ≤ 32) := by
  induction inputs with
  | nil => intro s hs; simpa [fordRun] using hs
  | cons p rest ih =>
    intro s hs
    rcases p with ⟨l, d⟩
    simp only [fordRun]
    exact ih _ (fordFeed_sync_bound s l d)

theorem gmRun_sync_bound (inputs : List (Bool × Nat)) :
    ∀ s : GMState,
      (s.parserStep = .preamble → s.decodeCountBit ≤ 32) →
      ((gmRun s inputs).1.parserStep = .preamble →
        (gmRun s inputs).1.decodeCountBit ≤ 32) := by
  induction inputs with
  | nil => intro s hs; simpa [gmRun] using hs
  | cons p rest ih =>
    intro s hs
    rcases p with ⟨l, d⟩
    simp only [gmRun]
    exact ih _ (gmFeed_sync_bound s l d)

theorem toyotaRun_sync_bound (inputs : List (Bool × Nat)) :
    ∀ s : ToyotaState,
      (s.parserStep = .sync → s.decodeCountBit ≤ 24) →
      ((toyotaRun s inputs).1.parserStep = .sync →
        (toyotaRun s inputs).1.decodeCountBit ≤ 24) := by
  induction inputs with
  | nil => intro s hs; simpa [toyotaRun] using hs
  | cons p rest ih =>
    intro s hs
    rcases p with ⟨l, d⟩
    simp only [toyotaRun]
    exact ih _ (toyotaFeed_sync_bound s l d)

theorem hyundaiRun_sync_bound (inputs : List (Bool × Nat)) :
    ∀ s : HyundaiState,
      (s.parserStep = .preamble → s.decodeCountBit ≤ 40) →
      ((hyundaiRun s inputs).1.parserStep = .preamble →
        (hyundaiRun s inputs).1.decodeCountBit ≤ 40) := by
  induction inputs with
  | nil => intro s hs; simpa [hyundaiRun] using hs
  | cons p rest ih =>
    intro s hs
    rcases p with ⟨l, d⟩
    simp only [hyundaiRun]
    exact ih _ (hyundaiFeed_sync_bound s l d)

theorem nissanRun_sync_bound (inputs : List (Bool × Nat)) :
    ∀ s : NissanState,
      (s.parserStep = .preamble → s.decodeCountBit ≤ 40) →
      ((nissanRun s inputs).1.parserStep = .preamble →
        (nissanRun s inputs).1.decodeCountBit ≤ 40) := by
  induction inputs with
  | nil => intro s hs; simpa [nissanRun] using hs
  | cons p rest ih =>
    intro s hs
    rcases p with ⟨l, d⟩
    simp only [nissanRun]
    exact ih _ (nissanFeed_sync_bound s l d hs)

/-- Claim C8: during sync search the accumulated bit count never
exceeds the protocol's overflow ceiling (32 for Ford and GM, 24 for
Toyota, 40 for Hyundai and Nissan): in every state reachable from the
initial state, a decoder sitting in its sync-search step holds at most
the ceiling of accumulated bits, so a search that never matches is
forced back to Reset instead of accumulating indefinitely. -/
theorem sync_overflow_ceiling (inputs : List (Bool × Nat)) :
    ((fordRun fordInit inputs).1.parserStep = .sync →
      (fordRun fordInit inputs).1.decodeCountBit ≤ 32) ∧
    ((gmRun gmInit inputs).1.parserStep = .preamble →
      (gmRun gmInit inputs).1.decodeCountBit ≤ 32) ∧
    ((toyotaRun toyotaInit inputs).1.parserStep = .sync →
      (toyotaRun toyotaInit inputs).1.decodeCountBit ≤ 24) ∧
    ((hyundaiRun hyundaiInit inputs).1.parserStep = .preamble →
      (hyundaiRun hyundaiInit inputs).1.decodeCountBit ≤ 40) ∧
    ((nissanRun nissanInit inputs).1.parserStep = .preamble →
      (nissanRun nissanInit inputs).1.decodeCountBit ≤ 40) :=
  ⟨fordRun_sync_bound inputs fordInit (fun h => absurd h (by decide)),
   gmRun_sync_bound inputs gmInit (fun h => absurd h (by decide)),
   toyotaRun_sync_bound inputs toyotaInit (fun h => absurd h (by decide)),
   hyundaiRun_sync_bound inputs hyundaiInit (fun h => absurd h (by decide)),
   nissanRun_sync_bound inputs nissanInit (fun h => absurd h (by decide))⟩

/-- Witness for C8: after one entering edge and two sync bits the Ford
decoder is in sync search, and the theorem bounds its bit count. -/
theorem sync_overflow_ceiling_witness :
    (fordRun fordInit [(true, 52), (true, 52), (false, 52)]).1.parserStep =
      FordStep.sync ∧
    (fordRun fordInit
        [(true, 52), (true, 52), (false, 52)]).1.decodeCountBit ≤ 32 :=
  ⟨by decide,
   (sync_overflow_ceiling [(true, 52), (true, 52), (false, 52)]).1
     (by decide)⟩

end TPMS
